import Mathlib

/-
Verification of the qiankun global-scope isolation sandbox core:
the multiplexed proxy sandbox (src/sandbox/proxySandbox.ts), the
snapshot/diffing legacy sandbox (class LegacySandbox in src/loader.ts),
and the native value binding layer and running-app registry
(src/sandbox/common.ts).

Modelling conventions:
* JavaScript objects are finite association lists from property keys
  to property descriptors; lookup takes the first matching entry.
* JavaScript values are an inductive type with explicit numeric
  identities for objects and functions, so reference equality of the
  source becomes equality of identities here.
* The observable property state of the host global object (including
  what is visible through its prototype chain) is flattened into one
  association list; likewise the fake window only carries own
  properties, and the in-operator checks of the source become own-key
  checks on these flattened maps.
* Assignment follows non-strict JavaScript semantics: writing to a
  non-writable data property or a getter-only accessor is silently
  ignored; an accessor property abstracts its getter/setter pair into
  the stored value, so invoking the setter is modelled as updating
  that value.
* process.env.NODE_ENV and window.__QIANKUN_DEVELOPMENT__ are
  modelled by two booleans, inTest and dev, carried in the world
  state (in the source inTest implies the dev whitelist extension;
  the booleans are kept independent here, which only widens the
  quantification of the theorems).
-/

/-- Property keys: strings, or symbols identified by a number
(Symbol.unscopables is the symbol with identity 0). -/
inductive PKey where
  | str (s : String)
  | sym (n : Nat)
  deriving DecidableEq, Repr

def symbolUnscopables : PKey := PKey.sym 0

def PKey.isSym : PKey → Bool
  | .sym _ => true
  | .str _ => false

/-- A function object: its identity, whether it is already a bound
function, and whether it is constructable. The latter two model the
results of isBoundedFunction / isConstructable from src/utils.ts
(that file is not among the provided sources). -/
structure FnVal where
  id : Nat
  bounded : Bool
  constructable : Bool
  deriving DecidableEq, Repr

/-- JavaScript values. The constructors proxyRef, unscopablesObj,
hasOwnPropertyFn, evalRef and nativeDocument are the distinguished
objects returned by the short-circuit branches of the proxy get
trap; host maps are expected to store undef/int/str/obj/fn values. -/
inductive Val where
  | undef
  | int (n : Int)
  | str (s : String)
  | obj (id : Nat)
  | fn (f : FnVal)
  | proxyRef (name : String)
  | unscopablesObj
  | hasOwnPropertyFn (name : String)
  | evalRef
  | nativeDocument
  deriving DecidableEq, Repr

/-- A property descriptor. Accessor properties are modelled by the
hasGetter/hasSetter flags together with the abstract current value
the accessor pair reads/writes. -/
structure Descriptor where
  value : Val
  writable : Bool
  enumerable : Bool
  configurable : Bool
  hasGetter : Bool
  hasSetter : Bool
  deriving DecidableEq, Repr

/- Generic association lists (first-match lookup, in-place update). -/

def alLookup {κ α : Type} [DecidableEq κ] : List (κ × α) → κ → Option α
  | [], _ => none
  | (k, a) :: t, q => if k = q then some a else alLookup t q

def alInsert {κ α : Type} [DecidableEq κ] : List (κ × α) → κ → α → List (κ × α)
  | [], q, b => [(q, b)]
  | (k, a) :: t, q, b => if k = q then (q, b) :: t else (k, a) :: alInsert t q b

def alDelete {κ α : Type} [DecidableEq κ] : List (κ × α) → κ → List (κ × α)
  | [], _ => []
  | (k, a) :: t, q => if k = q then alDelete t q else (k, a) :: alDelete t q

def alHasKey {κ α : Type} [DecidableEq κ] (l : List (κ × α)) (q : κ) : Bool :=
  (alLookup l q).isSome

theorem alLookup_insert_self {κ α : Type} [DecidableEq κ]
    (l : List (κ × α)) (q : κ) (b : α) : alLookup (alInsert l q b) q = some b := by
  induction l with
  | nil => simp [alInsert, alLookup]
  | cons h t ih =>
    obtain ⟨k, a⟩ := h
    by_cases hk : k = q
    · simp [alInsert, hk, alLookup]
    · simp [alInsert, hk, alLookup, ih]

theorem alLookup_insert_ne {κ α : Type} [DecidableEq κ]
    (l : List (κ × α)) (q r : κ) (b : α) (h : q ≠ r) :
    alLookup (alInsert l q b) r = alLookup l r := by
  induction l with
  | nil => simp [alInsert, alLookup, h]
  | cons hd t ih =>
    obtain ⟨k, a⟩ := hd
    by_cases hk : k = q
    · subst hk
      simp [alInsert, alLookup, h]
    · by_cases hr : k = r
      · subst hr
        simp [alInsert, hk, alLookup]
      · simp [alInsert, hk, alLookup, hr, ih]

theorem alLookup_delete {κ α : Type} [DecidableEq κ]
    (l : List (κ × α)) (q r : κ) :
    alLookup (alDelete l q) r = if q = r then none else alLookup l r := by
  induction l with
  | nil => simp [alDelete, alLookup]
  | cons hd t ih =>
    obtain ⟨k, a⟩ := hd
    by_cases hk : k = q
    · subst hk
      by_cases hr : k = r
      · subst hr
        simp [alDelete, alLookup, ih]
      · simp [alDelete, alLookup, hr, ih]
    · by_cases hr : k = r
      · subst hr
        have : q ≠ k := fun hh => hk hh.symm
        simp [alDelete, hk, alLookup, this]
      · simp [alDelete, hk, alLookup, hr, ih]

theorem alInsert_mem_keys {κ α : Type} [DecidableEq κ]
    (l : List (κ × α)) (q : κ) (b : α) :
    q ∈ (alInsert l q b).map Prod.fst := by
  induction l with
  | nil => simp [alInsert]
  | cons hd t ih =>
    obtain ⟨k, a⟩ := hd
    by_cases hk : k = q
    · simp [alInsert, hk]
    · have hrw : alInsert ((k, a) :: t) q b = (k, a) :: alInsert t q b := by
        simp [alInsert, hk]
      rw [hrw, List.map_cons]
      exact List.mem_cons_of_mem _ ih

/- JavaScript object operations over descriptor maps. -/

abbrev ObjMap := List (PKey × Descriptor)

/-- The descriptor created by a plain assignment to a previously
absent property of an ordinary object. -/
def freshDataDescriptor (v : Val) : Descriptor :=
  { value := v, writable := true, enumerable := true, configurable := true,
    hasGetter := false, hasSetter := false }

/-- Effect of a plain assignment on an existing descriptor
(non-strict semantics: a rejected write leaves it unchanged). -/
def descAssign (d : Descriptor) (v : Val) : Descriptor :=
  if d.hasGetter || d.hasSetter then
    if d.hasSetter then { d with value := v } else d
  else if d.writable then { d with value := v } else d

/-- Whether a plain assignment through this descriptor changes the
stored value (writable data property, or accessor with a setter). -/
def descWriteSucceeds (d : Descriptor) : Bool :=
  if d.hasGetter || d.hasSetter then d.hasSetter else d.writable

/-- Plain JavaScript assignment obj[p] = v. -/
def omJsAssign (h : ObjMap) (p : PKey) (v : Val) : ObjMap :=
  match alLookup h p with
  | none => alInsert h p (freshDataDescriptor v)
  | some d => alInsert h p (descAssign d v)

/-- Plain JavaScript read obj[p] (the abstract stored value also
stands for the result of an accessor's getter). -/
def omRawGet (h : ObjMap) (p : PKey) : Val :=
  match alLookup h p with
  | none => Val.undef
  | some d => d.value

theorem alLookup_jsAssign_self (h : ObjMap) (p : PKey) (v : Val) :
    alLookup (omJsAssign h p v) p =
      some (match alLookup h p with
            | none => freshDataDescriptor v
            | some d => descAssign d v) := by
  unfold omJsAssign
  cases alLookup h p <;> simp [alLookup_insert_self]

theorem alLookup_jsAssign_ne (h : ObjMap) (p q : PKey) (v : Val) (hpq : p ≠ q) :
    alLookup (omJsAssign h p v) q = alLookup h q := by
  unfold omJsAssign
  cases alLookup h p <;> simp [alLookup_insert_ne _ _ _ _ hpq]

theorem descAssign_configurable (d : Descriptor) (v : Val) :
    (descAssign d v).configurable = d.configurable := by
  unfold descAssign
  split <;> split <;> rfl

theorem descAssign_value_of_succeeds (d : Descriptor) (v : Val)
    (h : descWriteSucceeds d = true) : (descAssign d v).value = v := by
  unfold descWriteSucceeds at h
  unfold descAssign
  by_cases hacc : (d.hasGetter || d.hasSetter) = true
  · rw [if_pos hacc] at h
    simp [hacc, h]
  · rw [if_neg hacc] at h
    simp [hacc, h]

/- ==================================================================
   src/sandbox/common.ts: running-app registry and native value
   binding layer.
   ================================================================== -/

/-- An entry of the running-app registry. The source also stores the
sandbox's proxy object in the entry; only the name is ever compared,
so the proxy reference is not modelled. -/
structure RunningApp where
  name : String
  deriving DecidableEq, Repr

def isCallable : Val → Bool
  | .fn _ => true
  | _ => false

def isBoundedFunction : Val → Bool
  | .fn f => f.bounded
  | _ => false

def isConstructable : Val → Bool
  | .fn f => f.constructable
  | _ => false

/-- The process-wide functionBoundedValueMap: WeakMap from a callable
(by identity) to its cached bound wrapper. -/
abbrev FnCache := List (Nat × Val)

set_option linter.unusedVariables false in
/-- getTargetValue from src/sandbox/common.ts. The receiver-bound
wrapper is a fresh bound (hence non-constructable) function; the
dressing the source applies to it afterwards - copying enumerable own
fields, the prototype and toString from the original - decorates the
wrapper object and is not observable in this value model, in which a
function is just its identity and its two eligibility flags.
The binding receiver (target) never affects the result: the cache is
keyed by the original callable only, exactly as in the source, where
a cache hit returns the wrapper bound to the receiver of the first
read. Returns the value handed to isolated code together with the
updated cache and the next fresh function identity. -/
def getTargetValue (target : Val) (value : Val) (cache : FnCache) (fresh : Nat) :
    Val × FnCache × Nat :=
  match value with
  | Val.fn f =>
    if !f.bounded && !f.constructable then
      match alLookup cache f.id with
      | some cachedBoundFunction => (cachedBoundFunction, cache, fresh)
      | none =>
        let boundValue := Val.fn { id := fresh, bounded := true, constructable := false }
        (boundValue, alInsert cache f.id boundValue, fresh + 1)
    else (value, cache, fresh)
  | _ => (value, cache, fresh)

/- ==================================================================
   src/sandbox/proxySandbox.ts: data and module-level constants.
   ================================================================== -/

def mockSafariTop : String := "mockSafariTop"

def mockTop : String := "mockTop"

def mockGlobalThis : String := "mockGlobalThis"

/-- variableWhiteListInDev: present when NODE_ENV is test or
development or window.__QIANKUN_DEVELOPMENT__ is set, all modelled by
the dev flag. -/
def variableWhiteListInDev (dev : Bool) : List String :=
  if dev then ["__REACT_ERROR_OVERLAY_GLOBAL_HOOK__", "event"] else []

/-- globalVariableWhiteList: who could escape the sandbox. -/
def globalVariableWhiteList (dev : Bool) : List String :=
  ["System", "__cjsWrapper"] ++ variableWhiteListInDev dev

def accessingSpiedGlobals : List String := ["document", "top", "parent", "eval"]

def overwrittenGlobals (inTest : Bool) : List String :=
  ["window", "self", "globalThis", "hasOwnProperty"] ++
    (if inTest then [mockGlobalThis] else [])

/-- Modelled from the spec: the import of src/sandbox/globals.ts is
not among the provided sources; the spec describes it only as the
fixed always-visible set of standard global names used by the has
trap, so a representative list of standard globals stands in for it.
No claim below depends on its exact contents. -/
def globals : List String :=
  ["Array", "ArrayBuffer", "Boolean", "Date", "Error", "JSON", "Math",
   "Number", "Object", "Promise", "Reflect", "RegExp", "String", "Symbol",
   "decodeURI", "encodeURI", "isFinite", "isNaN", "parseFloat", "parseInt",
   "setTimeout", "clearTimeout", "document", "top", "parent", "eval",
   "window", "self", "globalThis"]

def listWithout (l remove : List String) : List String :=
  l.filter (fun x => !remove.contains x)

/-- Array.from(new Set(l)): deduplication keeping first occurrences. -/
def dedupStr : List String → List String
  | [] => []
  | x :: t => x :: (dedupStr t).filter (fun y => y ≠ x)

/-- cachedGlobals (and, as a membership test, cachedGlobalObjects). -/
def cachedGlobals (inTest : Bool) : List String :=
  dedupStr (listWithout (globals ++ overwrittenGlobals inTest ++ ["requestAnimationFrame"])
    accessingSpiedGlobals)

/-- useNativeWindowForBindingsProps as a membership test. -/
def useNativeWindowForBindingsProps (inTest : Bool) (p : PKey) : Bool :=
  p = PKey.str "fetch" || (inTest && p = PKey.str "mockDomAPIInBlackList")

/-- nativeGlobal from src/utils.ts (not among the provided sources):
the true native window object, as an opaque object value. -/
def nativeGlobal : Val := Val.obj 0

/-- The host global object (globalContext) as a receiver value for
Function.prototype.bind. -/
def hostGlobalVal : Val := Val.obj 1

/-- isPropertyFrozen from src/utils.ts (not among the provided
sources), modelled as the standard check: the property exists,
is non-configurable, and is either a non-writable data property or a
getter-only accessor. No claim below depends on its exact definition;
it only has to be a pure function of the object and the key. -/
def isPropertyFrozen (h : ObjMap) (p : PKey) : Bool :=
  match alLookup h p with
  | none => false
  | some d => !d.configurable && (!d.writable || (d.hasGetter && !d.hasSetter))

/-- Process-wide state shared by all multiplexed sandboxes: the host
global object, the module-level activeSandboxCount, the running-app
registry of src/sandbox/common.ts, the functionBoundedValueMap of the
binding layer together with a fresh-identity counter, and the
environment flags. hostIsTop models globalContext === globalContext.parent. -/
structure World where
  host : ObjMap
  hostIsTop : Bool
  inTest : Bool
  dev : Bool
  activeSandboxCount : Int
  currentRunningApp : Option RunningApp
  fnCache : FnCache
  freshFnId : Nat
  deriving DecidableEq, Repr

/-- Which object a descriptor was last reported from (the
descriptorTargetMap side table of the proxy constructor). -/
inductive SymbolTarget where
  | target
  | globalContext
  deriving DecidableEq, Repr

/-- Per-instance state of a ProxySandbox. -/
structure ProxySandbox where
  name : String
  sandboxRunning : Bool
  fakeWindow : ObjMap
  propertiesWithGetter : List PKey
  updatedValueSet : List PKey
  latestSetProp : Option PKey
  globalWhitelistPrevDescriptor : List (String × Option Descriptor)
  descriptorTargetMap : List (PKey × SymbolTarget)
  document : Val
  deriving DecidableEq, Repr

/-- The names whose copied descriptor createFakeWindow forces to be
configurable (and, when not behind a getter, writable): top, parent,
self, window, document in speedy mode, and the test mocks. -/
def specialNormalizedName (inTest speedy : Bool) (p : String) : Bool :=
  p = "top" || p = "parent" || p = "self" || p = "window" ||
    (p = "document" && speedy) ||
    (inTest && (p = mockTop || p = mockSafariTop))

/-- The descriptor actually stored on the fake window for a copied
non-configurable host property. -/
def normalizeFakeWindowDescriptor (inTest speedy : Bool) (p : String) (d : Descriptor) :
    Descriptor :=
  if specialNormalizedName inTest speedy p then
    { d with configurable := true,
             writable := if !d.hasGetter then true else d.writable }
  else d

/-- createFakeWindow: copies every non-configurable own property of
the host object onto a fresh fake window (Object.getOwnPropertyNames
yields string keys only, so symbol keys are skipped), normalizing the
identity-sensitive names, and records which copied properties are
behind a getter. The Object.freeze applied to each copied descriptor
only defends against zone.js mutating it and has no pure counterpart. -/
def createFakeWindow : ObjMap → Bool → Bool → ObjMap × List PKey
  | [], _, _ => ([], [])
  | (k, d) :: t, inTest, speedy =>
    let rest := createFakeWindow t inTest speedy
    match k with
    | PKey.sym _ => rest
    | PKey.str p =>
      if !d.configurable then
        ((PKey.str p, normalizeFakeWindowDescriptor inTest speedy p d) :: rest.1,
         if d.hasGetter then PKey.str p :: rest.2 else rest.2)
      else rest

/-- The registry entry after registerRunningApp has run (the source
re-registers only when no app, or a differently named app, is
current). The nextTask(clearCurrentRunningApp) scheduled by the same
method clears the registry on a later microtask; that asynchronous
clearing is outside of this synchronous-trap model. -/
def nextRunningApp (w : World) (s : ProxySandbox) : Option RunningApp :=
  if s.sandboxRunning then
    match w.currentRunningApp with
    | none => some { name := s.name }
    | some app => if app.name ≠ s.name then some { name := s.name } else some app
  else w.currentRunningApp

def registerRunningApp (w : World) (s : ProxySandbox) : World :=
  { w with currentRunningApp := nextRunningApp w s }

/-- Whether the set trap takes its whitelist branch: the key is a
string contained in globalVariableWhiteList. -/
def psIsWhitelistWrite (dev : Bool) : PKey → Bool
  | PKey.str ps => (globalVariableWhiteList dev).contains ps
  | PKey.sym _ => false

/-- The whitelist branch of the set trap records the host object's
current descriptor for the key - unconditionally, overwriting any
earlier record. -/
def psRecordWhitelist (record : List (String × Option Descriptor)) (host : ObjMap) :
    PKey → List (String × Option Descriptor)
  | PKey.str ps => alInsert record ps (alLookup host (PKey.str ps))
  | PKey.sym _ => record

def keyInsert (l : List PKey) (p : PKey) : List PKey :=
  if l.contains p then l else l ++ [p]

/-- The tail of the running set trap: record the key in
updatedValueSet and as latestSetProp. -/
def psFinishSet (s : ProxySandbox) (p : PKey) : ProxySandbox :=
  { s with updatedValueSet := keyInsert s.updatedValueSet p, latestSetProp := some p }

/-- The non-whitelist arm of the set trap: if the host object owns the
property but the fake window does not yet, copy the descriptor shape
(only when it is writable or has a setter) onto the fake window with
the new value; otherwise assign onto the fake window directly. -/
def psSetOnTarget (w : World) (s : ProxySandbox) (p : PKey) (v : Val) : ProxySandbox :=
  if !alHasKey s.fakeWindow p && alHasKey w.host p then
    match alLookup w.host p with
    | some d =>
      if d.writable || d.hasSetter then
        let copied : Descriptor :=
          { value := v, writable := true, enumerable := d.enumerable,
            configurable := d.configurable, hasGetter := false, hasSetter := false }
        { s with fakeWindow := alInsert s.fakeWindow p copied }
      else s
    | none => s
  else { s with fakeWindow := omJsAssign s.fakeWindow p v }

/-- The set trap of the ProxySandbox proxy. Returns the trap result
together with the updated shared and per-instance state; an inactive
sandbox swallows the write and still reports success, so strict-mode
callers do not throw. -/
def psSet (w : World) (s : ProxySandbox) (p : PKey) (v : Val) :
    Bool × World × ProxySandbox :=
  if s.sandboxRunning then
    let w1 := registerRunningApp w s
    if psIsWhitelistWrite w1.dev p then
      (true,
       { w1 with host := omJsAssign w1.host p v },
       psFinishSet
         { s with globalWhitelistPrevDescriptor :=
             psRecordWhitelist s.globalWhitelistPrevDescriptor w1.host p } p)
    else
      (true, w1, psFinishSet (psSetOnTarget w1 s p v) p)
  else (true, w, s)

/-- The guard of the dead whitelist branch in the get trap: the source
tests p === 'string' (rather than typeof p === 'string') before the
whitelist membership of p. -/
def stringWhitelistBranch (dev : Bool) : PKey → Bool
  | PKey.str ps => ps = "string" && (globalVariableWhiteList dev).contains ps
  | PKey.sym _ => false

/-- The generic tail of the get trap: pick the actual target
(host object for properties recorded as getter-backed, the fake
window when it holds the key, the host object otherwise), return a
frozen property's value directly, and otherwise route the value
through getTargetValue bound either to the native window or to the
host global object. -/
def psGetGenericPath (host : ObjMap) (inTest : Bool) (cache : FnCache) (fresh : Nat)
    (s : ProxySandbox) (p : PKey) : Val × FnCache × Nat :=
  let actualTarget : ObjMap :=
    if s.propertiesWithGetter.contains p then host
    else if alHasKey s.fakeWindow p then s.fakeWindow
    else host
  let value := omRawGet actualTarget p
  if isPropertyFrozen actualTarget p then (value, cache, fresh)
  else
    let boundTarget := if useNativeWindowForBindingsProps inTest p then nativeGlobal
                       else hostGlobalVal
    getTargetValue boundTarget value cache fresh

/-- The branch cascade of the get trap, taking the shared-state
components it reads explicitly. -/
def psGetCore (host : ObjMap) (hostIsTop inTest dev : Bool) (cache : FnCache)
    (fresh : Nat) (s : ProxySandbox) (p : PKey) : Val × FnCache × Nat :=
  if p = symbolUnscopables then (Val.unscopablesObj, cache, fresh)
  else if p = PKey.str "window" ∨ p = PKey.str "self" then
    (Val.proxyRef s.name, cache, fresh)
  else if p = PKey.str "globalThis" ∨ (inTest = true ∧ p = PKey.str mockGlobalThis) then
    (Val.proxyRef s.name, cache, fresh)
  else if p = PKey.str "top" ∨ p = PKey.str "parent" ∨
          (inTest = true ∧ (p = PKey.str mockTop ∨ p = PKey.str mockSafariTop)) then
    if hostIsTop then (Val.proxyRef s.name, cache, fresh)
    else (omRawGet host p, cache, fresh)
  else if p = PKey.str "hasOwnProperty" then (Val.hasOwnPropertyFn s.name, cache, fresh)
  else if p = PKey.str "document" then (s.document, cache, fresh)
  else if p = PKey.str "eval" then (Val.evalRef, cache, fresh)
  else if stringWhitelistBranch dev p then (omRawGet host p, cache, fresh)
  else psGetGenericPath host inTest cache fresh s p

/-- The get trap of the ProxySandbox proxy. -/
def psGet (w : World) (s : ProxySandbox) (p : PKey) : Val × World :=
  let w1 := registerRunningApp w s
  let r := psGetCore w1.host w1.hostIsTop w1.inTest w1.dev w1.fnCache w1.freshFnId s p
  (r.1, { w1 with fnCache := r.2.1, freshFnId := r.2.2 })

/-- The has trap: true when the key is in the always-visible
cachedGlobalObjects, on the fake window, or on the host object. It
does not touch any state (in particular it never calls
registerRunningApp). -/
def psHas (w : World) (s : ProxySandbox) (p : PKey) : Bool × World :=
  ((match p with
    | PKey.str ps => (cachedGlobals w.inTest).contains ps
    | PKey.sym _ => false)
   || alHasKey s.fakeWindow p || alHasKey w.host p, w)

/-- The deleteProperty trap: deletes only from the fake window's own
storage and always reports success. -/
def psDelete (w : World) (s : ProxySandbox) (p : PKey) :
    Bool × World × ProxySandbox :=
  let w1 := registerRunningApp w s
  if alHasKey s.fakeWindow p then
    (true, w1,
     { s with fakeWindow := alDelete s.fakeWindow p,
              updatedValueSet := s.updatedValueSet.filter (fun q => q ≠ p) })
  else (true, w1, s)

/-- The getOwnPropertyDescriptor trap: report from the fake window
when it owns the key, otherwise from the host object with a forced
configurable flag, recording in descriptorTargetMap where the
descriptor came from. -/
def psGetOwnPropertyDescriptor (w : World) (s : ProxySandbox) (p : PKey) :
    Option Descriptor × ProxySandbox :=
  if alHasKey s.fakeWindow p then
    (alLookup s.fakeWindow p,
     { s with descriptorTargetMap := alInsert s.descriptorTargetMap p SymbolTarget.target })
  else if alHasKey w.host p then
    match alLookup w.host p with
    | some d =>
      (some (if !d.configurable then { d with configurable := true } else d),
       { s with descriptorTargetMap :=
           alInsert s.descriptorTargetMap p SymbolTarget.globalContext })
    | none => (none, s)
  else (none, s)

/-- The ProxySandbox constructor: builds the fake window, starts in
the running state and increments the module-level activeSandboxCount. -/
def psNew (w : World) (name : String) (speedy : Bool) : World × ProxySandbox :=
  let fw := createFakeWindow w.host w.inTest speedy
  ({ w with activeSandboxCount := w.activeSandboxCount + 1 },
   { name := name, sandboxRunning := true, fakeWindow := fw.1,
     propertiesWithGetter := fw.2, updatedValueSet := [], latestSetProp := none,
     globalWhitelistPrevDescriptor := [], descriptorTargetMap := [],
     document := Val.nativeDocument })

/-- active(): increments the counter only on a transition from the
inactive state. -/
def psActive (w : World) (s : ProxySandbox) : World × ProxySandbox :=
  (if !s.sandboxRunning then { w with activeSandboxCount := w.activeSandboxCount + 1 }
   else w,
   { s with sandboxRunning := true })

/-- Restore the recorded whitelist descriptors onto the host object:
a recorded descriptor is redefined, a record of a previously absent
property is deleted (Object.keys iterates the records in insertion
order). Redefinition is Object.defineProperty with a complete
recorded descriptor, hence a full replacement; its TypeError on an
incompatible non-configurable redefinition is not modelled. -/
def restoreWhitelistRecords : List (String × Option Descriptor) → ObjMap → ObjMap
  | [], h => h
  | (p, r) :: t, h =>
    restoreWhitelistRecords t
      (match r with
       | some d => alInsert h (PKey.str p) d
       | none => alDelete h (PKey.str p))

/-- inactive(): in the test environment it restores eagerly and - by
JavaScript short-circuit evaluation of inTest || --activeSandboxCount
- leaves the counter untouched; otherwise it decrements the counter
and restores this instance's recorded whitelist descriptors only when
the counter reaches zero. -/
def psInactive (w : World) (s : ProxySandbox) : World × ProxySandbox :=
  if w.inTest then
    ({ w with host := restoreWhitelistRecords s.globalWhitelistPrevDescriptor w.host },
     { s with sandboxRunning := false })
  else
    let count := w.activeSandboxCount - 1
    if count = 0 then
      ({ w with activeSandboxCount := count,
                host := restoreWhitelistRecords s.globalWhitelistPrevDescriptor w.host },
       { s with sandboxRunning := false })
    else
      ({ w with activeSandboxCount := count }, { s with sandboxRunning := false })

/-- patchDocument(doc). -/
def psPatchDocument (s : ProxySandbox) (doc : Val) : ProxySandbox :=
  { s with document := doc }

/- ==================================================================
   src/loader.ts, class LegacySandbox: the snapshot/diffing sandbox.
   It shares no module state with the proxy sandbox, so its operations
   act on the host object map directly.
   ================================================================== -/

/-- Per-instance state of a LegacySandbox: the three diff maps, the
running flag and latestSetProp. -/
structure LegacySandbox where
  name : String
  addedPropsMapInSandbox : List (PKey × Val)
  modifiedPropsOriginalValueMapInSandbox : List (PKey × Val)
  currentUpdatedPropsValueMap : List (PKey × Val)
  sandboxRunning : Bool
  latestSetProp : Option PKey
  deriving DecidableEq, Repr

/-- The LegacySandbox constructor: empty diff maps, running. -/
def lsNew (name : String) : LegacySandbox :=
  { name := name, addedPropsMapInSandbox := [],
    modifiedPropsOriginalValueMapInSandbox := [],
    currentUpdatedPropsValueMap := [], sandboxRunning := true,
    latestSetProp := none }

/-- isPropConfigurable: an absent property counts as configurable. -/
def isPropConfigurable (h : ObjMap) (p : PKey) : Bool :=
  match alLookup h p with
  | some d => d.configurable
  | none => true

/-- Object.defineProperty(host, p, writable true, configurable true)
as issued by setWindowProp: a partial define that keeps the data
value and enumerability but converts an accessor into a data property
with value undefined (the value is re-assigned right afterwards). -/
def legacyDefineWC (h : ObjMap) (p : PKey) : ObjMap :=
  match alLookup h p with
  | none =>
    alInsert h p
      { value := Val.undef, writable := true, enumerable := false,
        configurable := true, hasGetter := false, hasSetter := false }
  | some d =>
    if d.hasGetter || d.hasSetter then
      alInsert h p
        { value := Val.undef, writable := true, enumerable := d.enumerable,
          configurable := true, hasGetter := false, hasSetter := false }
    else
      alInsert h p { d with writable := true, configurable := true }

/-- setWindowProp: delete the key when asked to delete an undefined
value; otherwise, only for configurable non-symbol properties,
redefine the property writable and configurable and assign the value. -/
def setWindowProp (h : ObjMap) (p : PKey) (v : Val) (toDelete : Bool) : ObjMap :=
  if v = Val.undef ∧ toDelete then alDelete h p
  else if isPropConfigurable h p ∧ ¬(p.isSym = true) then
    omJsAssign (legacyDefineWC h p) p v
  else h

/-- The setTrap helper of the LegacySandbox constructor: while
running, record the key in the added map (host does not own it) or
record the original value once in the modified map, update the
current merged map, optionally sync the value onto the host object,
and remember the key as latestSetProp; while inactive, swallow the
write and report success. -/
def legacySetTrap (h : ObjMap) (s : LegacySandbox) (p : PKey)
    (value originalValue : Val) (sync2Window : Bool) :
    Bool × ObjMap × LegacySandbox :=
  if s.sandboxRunning then
    let s1 :=
      if !alHasKey h p then
        { s with addedPropsMapInSandbox := alInsert s.addedPropsMapInSandbox p value }
      else if !alHasKey s.modifiedPropsOriginalValueMapInSandbox p then
        { s with modifiedPropsOriginalValueMapInSandbox :=
            alInsert s.modifiedPropsOriginalValueMapInSandbox p originalValue }
      else s
    let s2 := { s1 with
      currentUpdatedPropsValueMap := alInsert s1.currentUpdatedPropsValueMap p value,
      latestSetProp := some p }
    (true, if sync2Window then omJsAssign h p value else h, s2)
  else (true, h, s)

/-- The set trap of the LegacySandbox proxy: reads the original value
off the host object, then delegates to setTrap with sync2Window. -/
def legacyProxySet (h : ObjMap) (s : LegacySandbox) (p : PKey) (v : Val) :
    Bool × ObjMap × LegacySandbox :=
  legacySetTrap h s p v (omRawGet h p) true

/-- The get trap of the LegacySandbox proxy: self-references return
the proxy, everything else is read off the host object and routed
through getTargetValue with the host object as receiver. -/
def legacyGet (h : ObjMap) (s : LegacySandbox) (cache : FnCache) (fresh : Nat)
    (p : PKey) : Val × FnCache × Nat :=
  if p = PKey.str "top" ∨ p = PKey.str "parent" ∨
     p = PKey.str "window" ∨ p = PKey.str "self" then
    (Val.proxyRef s.name, cache, fresh)
  else getTargetValue hostGlobalVal (omRawGet h p) cache fresh

/-- active(): on a transition from inactive, re-apply every entry of
the current merged map onto the host object. -/
def legacyActive (h : ObjMap) (s : LegacySandbox) : ObjMap × LegacySandbox :=
  (if !s.sandboxRunning then
     s.currentUpdatedPropsValueMap.foldl (fun acc e => setWindowProp acc e.1 e.2 false) h
   else h,
   { s with sandboxRunning := true })

/-- inactive(): restore every value of the modified-original map,
then delete every key of the added map from the host object. -/
def legacyInactive (h : ObjMap) (s : LegacySandbox) : ObjMap × LegacySandbox :=
  let h1 := s.modifiedPropsOriginalValueMapInSandbox.foldl
    (fun acc e => setWindowProp acc e.1 e.2 false) h
  let h2 := s.addedPropsMapInSandbox.foldl
    (fun acc e => setWindowProp acc e.1 Val.undef true) h1
  (h2, { s with sandboxRunning := false })

/- ==================================================================
   Claim theorems.
   ================================================================== -/

/-- C7: for every callable value that is neither a bound function nor
constructable, applying getTargetValue twice (threading the cache)
returns two identity-equal results - the cached wrapper is reused -
and every ineligible value (non-callable, already bound, or a
constructor) passes through unchanged, with cache and counter
untouched. -/
theorem getTargetValue_cache_and_passthrough :
    (∀ (t1 t2 v : Val) (cache : FnCache) (n1 n2 : Nat),
      isCallable v = true → isBoundedFunction v = false → isConstructable v = false →
      (getTargetValue t2 v (getTargetValue t1 v cache n1).2.1 n2).1 =
        (getTargetValue t1 v cache n1).1) ∧
    (∀ (t v : Val) (cache : FnCache) (n : Nat),
      isCallable v = false ∨ isBoundedFunction v = true ∨ isConstructable v = true →
      getTargetValue t v cache n = (v, cache, n)) := by
  constructor
  · intro t1 t2 v cache n1 n2 hc hb hcon
    cases v
    case fn f =>
      have hb' : f.bounded = false := by simpa [isBoundedFunction] using hb
      have hc' : f.constructable = false := by simpa [isConstructable] using hcon
      cases hl : alLookup cache f.id with
      | some c => simp [getTargetValue, hb', hc', hl]
      | none => simp [getTargetValue, hb', hc', hl, alLookup_insert_self]
    all_goals simp [isCallable] at hc
  · intro t v cache n h
    cases v
    case fn f =>
      rcases h with h | h | h
      · simp [isCallable] at h
      · have hb : f.bounded = true := by simpa [isBoundedFunction] using h
        simp [getTargetValue, hb]
      · have hcon : f.constructable = true := by simpa [isConstructable] using h
        simp [getTargetValue, hcon]
    all_goals rfl

theorem getTargetValue_cache_and_passthrough_w :
    ((getTargetValue Val.undef (Val.fn ⟨0, false, false⟩)
        (getTargetValue Val.undef (Val.fn ⟨0, false, false⟩) [] 5).2.1 9).1 =
      (getTargetValue Val.undef (Val.fn ⟨0, false, false⟩) [] 5).1) ∧
    getTargetValue Val.undef (Val.int 3) [] 0 = (Val.int 3, [], 0) :=
  ⟨getTargetValue_cache_and_passthrough.1 Val.undef Val.undef (Val.fn ⟨0, false, false⟩)
      [] 5 9 rfl rfl rfl,
   getTargetValue_cache_and_passthrough.2 Val.undef (Val.int 3) [] 0 (Or.inl rfl)⟩

/-- C6: a write through a sandbox whose running flag is false returns
success and leaves the entire state - virtual object storage, host
object, updated-value set, latestSetProp, and everything else -
unchanged, for both the multiplexed (proxy) and the diffing (legacy)
sandbox. -/
theorem inactive_set_swallowed (w : World) (s : ProxySandbox) (h : ObjMap)
    (ls : LegacySandbox) (p q : PKey) (v u : Val)
    (hs : s.sandboxRunning = false) (hl : ls.sandboxRunning = false) :
    psSet w s p v = (true, w, s) ∧ legacyProxySet h ls q u = (true, h, ls) := by
  refine ⟨?_, ?_⟩
  · simp [psSet, hs]
  · simp [legacyProxySet, legacySetTrap, hl]

theorem inactive_set_swallowed_w :
    psSet { host := [], hostIsTop := true, inTest := false, dev := false,
            activeSandboxCount := 0, currentRunningApp := none, fnCache := [],
            freshFnId := 0 }
        { name := "a", sandboxRunning := false, fakeWindow := [],
          propertiesWithGetter := [], updatedValueSet := [], latestSetProp := none,
          globalWhitelistPrevDescriptor := [], descriptorTargetMap := [],
          document := Val.nativeDocument }
        (PKey.str "x") (Val.int 1) =
      (true,
       { host := [], hostIsTop := true, inTest := false, dev := false,
         activeSandboxCount := 0, currentRunningApp := none, fnCache := [],
         freshFnId := 0 },
       { name := "a", sandboxRunning := false, fakeWindow := [],
         propertiesWithGetter := [], updatedValueSet := [], latestSetProp := none,
         globalWhitelistPrevDescriptor := [], descriptorTargetMap := [],
         document := Val.nativeDocument }) ∧
    legacyProxySet []
      { name := "b", addedPropsMapInSandbox := [],
        modifiedPropsOriginalValueMapInSandbox := [],
        currentUpdatedPropsValueMap := [], sandboxRunning := false,
        latestSetProp := none }
      (PKey.str "y") (Val.int 2) =
      (true, [],
       { name := "b", addedPropsMapInSandbox := [],
         modifiedPropsOriginalValueMapInSandbox := [],
         currentUpdatedPropsValueMap := [], sandboxRunning := false,
         latestSetProp := none }) :=
  inactive_set_swallowed _ _ _ _ _ _ _ _ rfl rfl

/-- C10: the whitelist branch of the get trap is dead code - its
guard p === 'string' and 'string' in globalVariableWhiteList never
holds for any key in any environment - so a read of a whitelisted
key such as System always takes the generic lookup path. -/
theorem proxy_get_string_whitelist_unreachable :
    (∀ (dev : Bool) (p : PKey), stringWhitelistBranch dev p = false) ∧
    (∀ (host : ObjMap) (hostIsTop inTest dev : Bool) (cache : FnCache) (fresh : Nat)
       (s : ProxySandbox),
      psGetCore host hostIsTop inTest dev cache fresh s (PKey.str "System") =
        psGetGenericPath host inTest cache fresh s (PKey.str "System")) := by
  constructor
  · intro dev p
    cases p with
    | str ps =>
      by_cases hps : ps = "string"
      · subst hps
        cases dev <;> rfl
      · simp [stringWhitelistBranch, hps]
    | sym n => rfl
  · intro host hT iT dv cache fresh s
    cases iT <;> cases dv <;> rfl

theorem nextRunningApp_of_running (w : World) (s : ProxySandbox)
    (hs : s.sandboxRunning = true) :
    nextRunningApp w s = some { name := s.name } := by
  cases hc : w.currentRunningApp with
  | none => simp [nextRunningApp, hs, hc]
  | some app =>
    cases app with
    | mk nm =>
      by_cases hn : nm = s.name
      · simp [nextRunningApp, hs, hc, hn]
      · simp [nextRunningApp, hs, hc, hn]

/-- C9 (amended): each of the get, set and deleteProperty traps of an
active multiplexed sandbox leaves the sandbox registered as the
currently running app, but the has trap does not touch the registry
(or any other state) at all - contrary to the claim, which includes
has among the registering traps. -/
theorem proxy_traps_register_running_app (w : World) (s : ProxySandbox)
    (p : PKey) (v : Val) (hs : s.sandboxRunning = true) :
    (psGet w s p).2.currentRunningApp = some { name := s.name } ∧
    (psSet w s p v).2.1.currentRunningApp = some { name := s.name } ∧
    (psDelete w s p).2.1.currentRunningApp = some { name := s.name } ∧
    (psHas w s p).2 = w := by
  have hreg : (registerRunningApp w s).currentRunningApp = some { name := s.name } := by
    simp [registerRunningApp, nextRunningApp_of_running w s hs]
  refine ⟨?_, ?_, ?_, rfl⟩
  · simpa [psGet] using hreg
  · rw [psSet]
    simp only [hs, if_true]
    by_cases hwl : psIsWhitelistWrite (registerRunningApp w s).dev p = true
    · simp [hwl, hreg]
    · simp [hwl, hreg]
  · by_cases hk : alHasKey s.fakeWindow p = true
    · simp [psDelete, hk, hreg]
    · simp [psDelete, hk, hreg]

theorem proxy_traps_register_running_app_w :
    (psGet { host := [], hostIsTop := true, inTest := false, dev := false,
             activeSandboxCount := 1, currentRunningApp := none, fnCache := [],
             freshFnId := 0 }
        { name := "app", sandboxRunning := true, fakeWindow := [],
          propertiesWithGetter := [], updatedValueSet := [], latestSetProp := none,
          globalWhitelistPrevDescriptor := [], descriptorTargetMap := [],
          document := Val.nativeDocument }
        (PKey.str "x")).2.currentRunningApp = some { name := "app" } ∧
    (psSet { host := [], hostIsTop := true, inTest := false, dev := false,
             activeSandboxCount := 1, currentRunningApp := none, fnCache := [],
             freshFnId := 0 }
        { name := "app", sandboxRunning := true, fakeWindow := [],
          propertiesWithGetter := [], updatedValueSet := [], latestSetProp := none,
          globalWhitelistPrevDescriptor := [], descriptorTargetMap := [],
          document := Val.nativeDocument }
        (PKey.str "x") (Val.int 1)).2.1.currentRunningApp = some { name := "app" } ∧
    (psDelete { host := [], hostIsTop := true, inTest := false, dev := false,
                activeSandboxCount := 1, currentRunningApp := none, fnCache := [],
                freshFnId := 0 }
        { name := "app", sandboxRunning := true, fakeWindow := [],
          propertiesWithGetter := [], updatedValueSet := [], latestSetProp := none,
          globalWhitelistPrevDescriptor := [], descriptorTargetMap := [],
          document := Val.nativeDocument }
        (PKey.str "x")).2.1.currentRunningApp = some { name := "app" } ∧
    (psHas { host := [], hostIsTop := true, inTest := false, dev := false,
             activeSandboxCount := 1, currentRunningApp := none, fnCache := [],
             freshFnId := 0 }
        { name := "app", sandboxRunning := true, fakeWindow := [],
          propertiesWithGetter := [], updatedValueSet := [], latestSetProp := none,
          globalWhitelistPrevDescriptor := [], descriptorTargetMap := [],
          document := Val.nativeDocument }
        (PKey.str "x")).2 =
      { host := [], hostIsTop := true, inTest := false, dev := false,
        activeSandboxCount := 1, currentRunningApp := none, fnCache := [],
        freshFnId := 0 } :=
  proxy_traps_register_running_app _ _ (PKey.str "x") (Val.int 1) rfl

/-- C9 counterexample: performing has through an active sandbox named
app, starting from an empty registry, leaves the registry empty - it
does not report the sandbox as the currently running app, so the has
trap violates the claim. -/
theorem proxy_has_trap_no_register_cex :
    (psHas { host := [], hostIsTop := true, inTest := false, dev := false,
             activeSandboxCount := 1, currentRunningApp := none, fnCache := [],
             freshFnId := 0 }
        { name := "app", sandboxRunning := true, fakeWindow := [],
          propertiesWithGetter := [], updatedValueSet := [], latestSetProp := none,
          globalWhitelistPrevDescriptor := [], descriptorTargetMap := [],
          document := Val.nativeDocument }
        (PKey.str "x")).2.currentRunningApp = none ∧
    ¬((psHas { host := [], hostIsTop := true, inTest := false, dev := false,
               activeSandboxCount := 1, currentRunningApp := none, fnCache := [],
               freshFnId := 0 }
          { name := "app", sandboxRunning := true, fakeWindow := [],
            propertiesWithGetter := [], updatedValueSet := [], latestSetProp := none,
            globalWhitelistPrevDescriptor := [], descriptorTargetMap := [],
            document := Val.nativeDocument }
          (PKey.str "x")).2.currentRunningApp = some { name := "app" }) := by
  refine ⟨rfl, ?_⟩
  intro hcontra
  simp [psHas] at hcontra

/-- C1: with two multiplexed sandboxes over the same world, both
active, a write of a non-whitelisted key through sandbox A leaves the
host global object unchanged and leaves the value read for that key
through sandbox B unchanged. -/
theorem proxy_write_isolated_from_other_sandbox
    (w : World) (A B : ProxySandbox) (p : PKey) (v : Val)
    (hA : A.sandboxRunning = true) (hB : B.sandboxRunning = true)
    (hwl : psIsWhitelistWrite w.dev p = false) :
    (psSet w A p v).2.1.host = w.host ∧
    (psGet (psSet w A p v).2.1 B p).1 = (psGet w B p).1 := by
  have hwl' : psIsWhitelistWrite (registerRunningApp w A).dev p = false := hwl
  have hstep : psSet w A p v =
      (true, registerRunningApp w A,
       psFinishSet (psSetOnTarget (registerRunningApp w A) A p v) p) := by
    rw [psSet]
    simp [hA, hwl']
  rw [hstep]
  exact ⟨rfl, rfl⟩

def c1World : World :=
  { host := [(PKey.str "K", freshDataDescriptor (Val.int 0))], hostIsTop := true,
    inTest := false, dev := false, activeSandboxCount := 0, currentRunningApp := none,
    fnCache := [], freshFnId := 0 }

def c1StepA : World × ProxySandbox := psNew c1World "A" false

def c1StepB : World × ProxySandbox := psNew c1StepA.1 "B" false

theorem proxy_write_isolated_from_other_sandbox_w :
    (psSet c1StepB.1 c1StepA.2 (PKey.str "K") (Val.int 7)).2.1.host = c1StepB.1.host ∧
    (psGet (psSet c1StepB.1 c1StepA.2 (PKey.str "K") (Val.int 7)).2.1 c1StepB.2
        (PKey.str "K")).1 =
      (psGet c1StepB.1 c1StepB.2 (PKey.str "K")).1 :=
  proxy_write_isolated_from_other_sandbox c1StepB.1 c1StepA.2 c1StepB.2
    (PKey.str "K") (Val.int 7) rfl rfl (by decide)

theorem registerRunningApp_host (w : World) (s : ProxySandbox) :
    (registerRunningApp w s).host = w.host := rfl

theorem registerRunningApp_dev (w : World) (s : ProxySandbox) :
    (registerRunningApp w s).dev = w.dev := rfl

theorem psSet_whitelist_proj (w : World) (s : ProxySandbox) (ps : String) (v : Val)
    (hrun : s.sandboxRunning = true)
    (hwl : (globalVariableWhiteList w.dev).contains ps = true) :
    (psSet w s (PKey.str ps) v).2.1.host = omJsAssign w.host (PKey.str ps) v ∧
    (psSet w s (PKey.str ps) v).2.1.dev = w.dev ∧
    (psSet w s (PKey.str ps) v).2.2.sandboxRunning = true ∧
    (psSet w s (PKey.str ps) v).2.2.globalWhitelistPrevDescriptor =
      alInsert s.globalWhitelistPrevDescriptor ps (alLookup w.host (PKey.str ps)) := by
  have hwl1 : psIsWhitelistWrite w.dev (PKey.str ps) = true := hwl
  rw [psSet]
  simp [hrun, hwl1, psRecordWhitelist, psFinishSet, registerRunningApp_host,
    registerRunningApp_dev]

theorem descAssign_flags (d : Descriptor) (v : Val) :
    (descAssign d v).writable = d.writable ∧
    (descAssign d v).enumerable = d.enumerable ∧
    (descAssign d v).hasGetter = d.hasGetter ∧
    (descAssign d v).hasSetter = d.hasSetter := by
  unfold descAssign
  split <;> split <;> simp

/-- C3 (amended): each write of a whitelisted key through an active
multiplexed sandbox assigns the value directly onto the host object,
and records the host's descriptor for that key as it stands at the
moment of that write - overwriting any earlier record, so after two
writes the record holds the descriptor left by the first write rather
than the pre-activation descriptor. -/
theorem proxy_whitelist_record_each_write
    (w : World) (s : ProxySandbox) (ps : String) (v1 v2 : Val) (d : Descriptor)
    (hrun : s.sandboxRunning = true)
    (hwl : (globalVariableWhiteList w.dev).contains ps = true)
    (hlook : alLookup w.host (PKey.str ps) = some d)
    (hng : d.hasGetter = false) (hns : d.hasSetter = false) (hwr : d.writable = true) :
    alLookup (psSet (psSet w s (PKey.str ps) v1).2.1 (psSet w s (PKey.str ps) v1).2.2
        (PKey.str ps) v2).2.2.globalWhitelistPrevDescriptor ps =
      some (some { d with value := v1 }) ∧
    omRawGet (psSet (psSet w s (PKey.str ps) v1).2.1 (psSet w s (PKey.str ps) v1).2.2
        (PKey.str ps) v2).2.1.host (PKey.str ps) = v2 := by
  have hd1 : descAssign d v1 = { d with value := v1 } := by
    simp [descAssign, hng, hns, hwr]
  have hd2 : descAssign { d with value := v1 } v2 = { d with value := v2 } := by
    simp [descAssign, hng, hns, hwr]
  have hL1 : alLookup (omJsAssign w.host (PKey.str ps) v1) (PKey.str ps) =
      some ({ d with value := v1 }) := by
    rw [alLookup_jsAssign_self, hlook]
    simp [hd1]
  have hL2 : alLookup (omJsAssign (omJsAssign w.host (PKey.str ps) v1) (PKey.str ps) v2)
      (PKey.str ps) = some ({ d with value := v2 }) := by
    rw [alLookup_jsAssign_self, hL1]
    simp [hd2]
  obtain ⟨ha1, ha2, ha3, ha4⟩ := psSet_whitelist_proj w s ps v1 hrun hwl
  have hwl2 : (globalVariableWhiteList (psSet w s (PKey.str ps) v1).2.1.dev).contains ps =
      true := by
    rw [ha2]
    exact hwl
  obtain ⟨hb1, hb2, hb3, hb4⟩ := psSet_whitelist_proj (psSet w s (PKey.str ps) v1).2.1
    (psSet w s (PKey.str ps) v1).2.2 ps v2 ha3 hwl2
  constructor
  · rw [hb4, alLookup_insert_self, ha1, hL1]
  · rw [hb1, ha1]
    simp [omRawGet, hL2]

def c3World : World :=
  { host := [(PKey.str "System", freshDataDescriptor (Val.int 0))], hostIsTop := true,
    inTest := false, dev := false, activeSandboxCount := 0, currentRunningApp := none,
    fnCache := [], freshFnId := 0 }

def c3Sandbox : ProxySandbox := (psNew c3World "a" false).2

def c3Write1 : Bool × World × ProxySandbox :=
  psSet (psNew c3World "a" false).1 c3Sandbox (PKey.str "System") (Val.int 1)

def c3Write2 : Bool × World × ProxySandbox :=
  psSet c3Write1.2.1 c3Write1.2.2 (PKey.str "System") (Val.int 2)

/-- C3 counterexample: with host System initially holding 0, writing
System twice (1 then 2) through one active sandbox leaves the
recorded previous descriptor holding the value 1 written by the
first write - not the pre-activation descriptor with value 0, which
the claim says is preserved by the first write only. -/
theorem proxy_whitelist_record_overwritten_cex :
    alLookup c3Write2.2.2.globalWhitelistPrevDescriptor "System" =
      some (some (freshDataDescriptor (Val.int 1))) ∧
    alLookup c3Write2.2.2.globalWhitelistPrevDescriptor "System" ≠
      some (some (freshDataDescriptor (Val.int 0))) := by
  decide

theorem proxy_whitelist_record_each_write_w :
    alLookup c3Write2.2.2.globalWhitelistPrevDescriptor "System" =
      some (some { freshDataDescriptor (Val.int 0) with value := Val.int 1 }) ∧
    omRawGet c3Write2.2.1.host (PKey.str "System") = Val.int 2 :=
  proxy_whitelist_record_each_write (psNew c3World "a" false).1 c3Sandbox "System"
    (Val.int 1) (Val.int 2) (freshDataDescriptor (Val.int 0)) rfl (by decide) rfl
    rfl rfl rfl

def c4World (d0 : Descriptor) : World :=
  { host := [(PKey.str "System", d0)], hostIsTop := true, inTest := false, dev := false,
    activeSandboxCount := 0, currentRunningApp := none, fnCache := [], freshFnId := 0 }

def c4StepA (d0 : Descriptor) : World × ProxySandbox := psNew (c4World d0) "A" false

def c4StepB (d0 : Descriptor) : World × ProxySandbox := psNew (c4StepA d0).1 "B" false

def c4Write1 (d0 : Descriptor) (va : Val) : Bool × World × ProxySandbox :=
  psSet (c4StepB d0).1 (c4StepA d0).2 (PKey.str "System") va

def c4Write2 (d0 : Descriptor) (va vb : Val) : Bool × World × ProxySandbox :=
  psSet (c4Write1 d0 va).2.1 (c4StepB d0).2 (PKey.str "__cjsWrapper") vb

def c4Inact1 (d0 : Descriptor) (va vb : Val) : World × ProxySandbox :=
  psInactive (c4Write2 d0 va vb).2.1 (c4Write1 d0 va).2.2

def c4Inact2 (d0 : Descriptor) (va vb : Val) : World × ProxySandbox :=
  psInactive (c4Inact1 d0 va vb).1 (c4Write2 d0 va vb).2.2

/-- C4 (amended): outside the test environment, with two multiplexed
sandboxes constructed over a host whose whitelisted key System holds
the writable data descriptor d0, where A writes System and B writes
__cjsWrapper: deactivating A alone (counter 2 to 1) restores nothing;
deactivating B (counter reaching zero) restores only B's own records,
deleting __cjsWrapper which B recorded as previously absent, while
System - recorded by A, not by B - keeps A's written value instead of
being restored to its pre-activation descriptor. -/
theorem proxy_inactive_counter_restore (d0 : Descriptor) (va vb : Val)
    (hw : d0.writable = true) (hg : d0.hasGetter = false) (hs : d0.hasSetter = false) :
    (c4Inact1 d0 va vb).1.host = (c4Write2 d0 va vb).2.1.host ∧
    alLookup (c4Inact2 d0 va vb).1.host (PKey.str "System") =
      some { d0 with value := va } ∧
    alLookup (c4Inact2 d0 va vb).1.host (PKey.str "__cjsWrapper") = none := by
  have hd1 : descAssign d0 va = { d0 with value := va } := by
    simp [descAssign, hg, hs, hw]
  refine ⟨?_, ?_, ?_⟩ <;>
    simp [c4Inact2, c4Inact1, c4Write2, c4Write1, c4StepB, c4StepA, c4World, psNew,
      psSet, psInactive, registerRunningApp, nextRunningApp, psIsWhitelistWrite,
      psRecordWhitelist, psFinishSet, globalVariableWhiteList, variableWhiteListInDev,
      omJsAssign, alInsert, alLookup, alDelete, restoreWhitelistRecords, keyInsert, hd1]

/-- C4 counterexample: in the concrete two-sandbox scenario (System
initially 0, A writes System to 1, B writes __cjsWrapper to 2, then A
deactivates followed by B), the final deactivation that brings the
counter to zero leaves host System at value 1 - it is neither
restored to its pre-activation descriptor nor deleted, because A's
record is not restored by B's inactive(). -/
theorem proxy_last_inactive_not_preactivation_cex :
    alLookup (c4Inact2 (freshDataDescriptor (Val.int 0)) (Val.int 1) (Val.int 2)).1.host
        (PKey.str "System") = some (freshDataDescriptor (Val.int 1)) ∧
    alLookup (c4Inact2 (freshDataDescriptor (Val.int 0)) (Val.int 1) (Val.int 2)).1.host
        (PKey.str "System") ≠ some (freshDataDescriptor (Val.int 0)) ∧
    alLookup (c4Inact2 (freshDataDescriptor (Val.int 0)) (Val.int 1) (Val.int 2)).1.host
        (PKey.str "System") ≠ none := by
  decide

theorem proxy_inactive_counter_restore_w :
    (c4Inact1 (freshDataDescriptor (Val.int 0)) (Val.int 1) (Val.int 2)).1.host =
      (c4Write2 (freshDataDescriptor (Val.int 0)) (Val.int 1) (Val.int 2)).2.1.host ∧
    alLookup (c4Inact2 (freshDataDescriptor (Val.int 0)) (Val.int 1) (Val.int 2)).1.host
        (PKey.str "System") =
      some { freshDataDescriptor (Val.int 0) with value := Val.int 1 } ∧
    alLookup (c4Inact2 (freshDataDescriptor (Val.int 0)) (Val.int 1) (Val.int 2)).1.host
        (PKey.str "__cjsWrapper") = none :=
  proxy_inactive_counter_restore (freshDataDescriptor (Val.int 0)) (Val.int 1)
    (Val.int 2) rfl rfl rfl

theorem createFakeWindow_lookup_of_nonconfigurable
    (h : ObjMap) (t sp : Bool) (K : String) (d : Descriptor)
    (hlook : alLookup h (PKey.str K) = some d) (hnc : d.configurable = false) :
    alLookup (createFakeWindow h t sp).1 (PKey.str K) =
      some (normalizeFakeWindowDescriptor t sp K d) := by
  induction h with
  | nil => simp [alLookup] at hlook
  | cons hd tl ih =>
    obtain ⟨k, e⟩ := hd
    by_cases hk : k = PKey.str K
    · subst hk
      rw [alLookup] at hlook
      simp at hlook
      subst hlook
      simp [createFakeWindow, hnc, alLookup]
    · have hlook' : alLookup tl (PKey.str K) = some d := by
        rw [alLookup] at hlook
        simpa [hk] using hlook
      cases k with
      | sym n =>
        simpa [createFakeWindow] using ih hlook'
      | str kp =>
        by_cases hc : e.configurable = true
        · simpa [createFakeWindow, hc] using ih hlook'
        · have hkp : PKey.str kp ≠ PKey.str K := hk
          simp [createFakeWindow, hc, alLookup, hkp]
          exact ih hlook'

/-- C5 (amended): every non-configurable own property of the host
object at construction time that is not one of the identity-sensitive
normalized names (top, parent, self, window, document in speedy mode,
test mocks) is reported by the getOwnPropertyDescriptor trap of a
freshly constructed sandbox with exactly its construction-time
descriptor: still non-configurable and with the construction-time
value. -/
theorem proxy_nonconfigurable_descriptor_faithful
    (w : World) (nm K : String) (speedy : Bool) (d : Descriptor)
    (hlook : alLookup w.host (PKey.str K) = some d)
    (hnc : d.configurable = false)
    (hsp : specialNormalizedName w.inTest speedy K = false) :
    (psGetOwnPropertyDescriptor (psNew w nm speedy).1 (psNew w nm speedy).2
        (PKey.str K)).1 = some d := by
  have hfw : alLookup (createFakeWindow w.host w.inTest speedy).1 (PKey.str K) =
      some d := by
    rw [createFakeWindow_lookup_of_nonconfigurable w.host _ _ K d hlook hnc]
    simp [normalizeFakeWindowDescriptor, hsp]
  have hhk : alHasKey (createFakeWindow w.host w.inTest speedy).1 (PKey.str K) = true := by
    simp [alHasKey, hfw]
  simp [psGetOwnPropertyDescriptor, psNew, hhk, hfw]

theorem proxy_nonconfigurable_descriptor_faithful_w :
    (psGetOwnPropertyDescriptor
        (psNew { host := [(PKey.str "NaN",
                           { value := Val.int 0, writable := false, enumerable := false,
                             configurable := false, hasGetter := false,
                             hasSetter := false })],
                 hostIsTop := true, inTest := false, dev := false,
                 activeSandboxCount := 0, currentRunningApp := none, fnCache := [],
                 freshFnId := 0 } "a" false).1
        (psNew { host := [(PKey.str "NaN",
                           { value := Val.int 0, writable := false, enumerable := false,
                             configurable := false, hasGetter := false,
                             hasSetter := false })],
                 hostIsTop := true, inTest := false, dev := false,
                 activeSandboxCount := 0, currentRunningApp := none, fnCache := [],
                 freshFnId := 0 } "a" false).2
        (PKey.str "NaN")).1 =
      some { value := Val.int 0, writable := false, enumerable := false,
             configurable := false, hasGetter := false, hasSetter := false } :=
  proxy_nonconfigurable_descriptor_faithful _ "a" "NaN" false _ rfl rfl rfl

def c5World : World :=
  { host := [(PKey.str "window",
              { value := Val.obj 7, writable := false, enumerable := true,
                configurable := false, hasGetter := false, hasSetter := false })],
    hostIsTop := true, inTest := false, dev := false, activeSandboxCount := 0,
    currentRunningApp := none, fnCache := [], freshFnId := 0 }

/-- C5 counterexample: window is a non-configurable own property of
the host at construction time, yet a freshly constructed sandbox
reports its descriptor as configurable (createFakeWindow normalizes
the identity-sensitive names), so the claim fails for P = window. -/
theorem proxy_window_descriptor_configurable_cex :
    (alLookup c5World.host (PKey.str "window")).map Descriptor.configurable =
      some false ∧
    ((psGetOwnPropertyDescriptor (psNew c5World "a" false).1 (psNew c5World "a" false).2
        (PKey.str "window")).1).map Descriptor.configurable = some true := by
  decide

theorem setWindowProp_delete (h : ObjMap) (p : PKey) :
    setWindowProp h p Val.undef true = alDelete h p := by
  simp [setWindowProp]

theorem setWindowProp_nonconfigurable_skip (h : ObjMap) (p : PKey) (v : Val)
    (hcfg : isPropConfigurable h p = false) :
    setWindowProp h p v false = h := by
  simp [setWindowProp, hcfg]

theorem setWindowProp_assign_result (h : ObjMap) (K : String) (v : Val)
    (hcfg : isPropConfigurable h (PKey.str K) = true) :
    alLookup (setWindowProp h (PKey.str K) v false) (PKey.str K) =
      some { value := v, writable := true,
             enumerable := (match alLookup h (PKey.str K) with
                            | some d => d.enumerable
                            | none => false),
             configurable := true, hasGetter := false, hasSetter := false } := by
  simp only [setWindowProp, PKey.isSym]
  rw [if_neg (by simp)]
  rw [if_pos (by simp [hcfg])]
  cases hl : alLookup h (PKey.str K) with
  | none =>
    rw [alLookup_jsAssign_self]
    simp [legacyDefineWC, hl, alLookup_insert_self, descAssign]
  | some d =>
    obtain ⟨dv, dw, de, dc, dg, dst⟩ := d
    cases dg <;> cases dst <;>
      · rw [alLookup_jsAssign_self]
        simp [legacyDefineWC, hl, alLookup_insert_self, descAssign]

theorem foldl_delete_absent : ∀ (l : List (PKey × Val)) (h : ObjMap) (K : PKey),
    alLookup h K = none →
    alLookup (l.foldl (fun acc e => setWindowProp acc e.1 Val.undef true) h) K = none := by
  intro l
  induction l with
  | nil =>
    intro h K habs
    simpa using habs
  | cons hd tl ih =>
    intro h K habs
    simp only [List.foldl_cons]
    apply ih
    rw [setWindowProp_delete, alLookup_delete]
    split
    · rfl
    · exact habs

theorem foldl_delete_mem : ∀ (l : List (PKey × Val)) (h : ObjMap) (K : PKey),
    K ∈ l.map Prod.fst →
    alLookup (l.foldl (fun acc e => setWindowProp acc e.1 Val.undef true) h) K = none := by
  intro l
  induction l with
  | nil =>
    intro h K hmem
    simp at hmem
  | cons hd tl ih =>
    intro h K hmem
    simp only [List.foldl_cons]
    by_cases hk : hd.1 = K
    · apply foldl_delete_absent
      rw [setWindowProp_delete, alLookup_delete]
      simp [hk]
    · have h1 : K ∈ tl.map Prod.fst := by
        simp only [List.map_cons, List.mem_cons] at hmem
        rcases hmem with h2 | h2
        · exact absurd h2.symm hk
        · exact h2
      exact ih _ K h1

/-- C2 (amended): for the diffing sandbox, (1) a key the host did not
own is removed from the host entirely by a write/deactivate sequence
from any active sandbox state; (2) starting from a fresh sandbox, a
key the host owns with a configurable descriptor of value v0 is
restored to value v0 by a write/deactivate sequence. Part (2) needs
the key to be a configurable string-keyed property because
setWindowProp skips symbols and non-configurable properties during
restoration. -/
theorem legacy_roundtrip_amended :
    (∀ (host0 : ObjMap) (s : LegacySandbox) (K : PKey) (v1 : Val),
      s.sandboxRunning = true → alHasKey host0 K = false →
      alLookup (legacyInactive (legacyProxySet host0 s K v1).2.1
          (legacyProxySet host0 s K v1).2.2).1 K = none) ∧
    (∀ (host0 : ObjMap) (nm K : String) (v2 : Val) (d : Descriptor),
      alLookup host0 (PKey.str K) = some d → d.configurable = true →
      omRawGet (legacyInactive (legacyProxySet host0 (lsNew nm) (PKey.str K) v2).2.1
          (legacyProxySet host0 (lsNew nm) (PKey.str K) v2).2.2).1 (PKey.str K) =
        d.value) := by
  constructor
  · intro host0 s K v1 hrun hnk
    have hstep : legacyProxySet host0 s K v1 =
        (true, omJsAssign host0 K v1,
         { s with addedPropsMapInSandbox := alInsert s.addedPropsMapInSandbox K v1,
                  currentUpdatedPropsValueMap := alInsert s.currentUpdatedPropsValueMap K v1,
                  latestSetProp := some K }) := by
      rw [legacyProxySet, legacySetTrap]
      simp [hrun, hnk]
    rw [hstep]
    simp only [legacyInactive]
    exact foldl_delete_mem _ _ _ (alInsert_mem_keys _ _ _)
  · intro host0 nm K v2 d hlook hc
    have hhk : alHasKey host0 (PKey.str K) = true := by
      simp [alHasKey, hlook]
    have horig : omRawGet host0 (PKey.str K) = d.value := by
      simp [omRawGet, hlook]
    have hstep : legacyProxySet host0 (lsNew nm) (PKey.str K) v2 =
        (true, omJsAssign host0 (PKey.str K) v2,
         { name := nm, addedPropsMapInSandbox := [],
           modifiedPropsOriginalValueMapInSandbox := [(PKey.str K, d.value)],
           currentUpdatedPropsValueMap := [(PKey.str K, v2)],
           sandboxRunning := true, latestSetProp := some (PKey.str K) }) := by
      rw [legacyProxySet, legacySetTrap]
      simp [lsNew, hhk, hlook, horig, alHasKey, alLookup, alInsert]
    rw [hstep]
    simp only [legacyInactive, List.foldl_cons, List.foldl_nil]
    have hcfg : isPropConfigurable (omJsAssign host0 (PKey.str K) v2) (PKey.str K) =
        true := by
      simp [isPropConfigurable, alLookup_jsAssign_self, hlook, descAssign_configurable, hc]
    simp [omRawGet, setWindowProp_assign_result _ K _ hcfg]

theorem legacy_roundtrip_amended_w :
    alLookup (legacyInactive
        (legacyProxySet [] (lsNew "a") (PKey.str "k") (Val.int 1)).2.1
        (legacyProxySet [] (lsNew "a") (PKey.str "k") (Val.int 1)).2.2).1
      (PKey.str "k") = none ∧
    omRawGet (legacyInactive
        (legacyProxySet [(PKey.str "m", freshDataDescriptor (Val.int 0))] (lsNew "b")
          (PKey.str "m") (Val.int 2)).2.1
        (legacyProxySet [(PKey.str "m", freshDataDescriptor (Val.int 0))] (lsNew "b")
          (PKey.str "m") (Val.int 2)).2.2).1
      (PKey.str "m") = Val.int 0 :=
  ⟨legacy_roundtrip_amended.1 [] (lsNew "a") (PKey.str "k") (Val.int 1) rfl rfl,
   legacy_roundtrip_amended.2 [(PKey.str "m", freshDataDescriptor (Val.int 0))] "b" "m"
     (Val.int 2) (freshDataDescriptor (Val.int 0)) rfl rfl⟩

def c2Host : ObjMap :=
  [(PKey.str "k", { value := Val.int 0, writable := true, enumerable := true,
                    configurable := false, hasGetter := false, hasSetter := false })]

/-- C2 counterexample: the host owns k with value 0 as a writable but
non-configurable data property; a fresh diffing sandbox writes k to 7
and deactivates, but the host keeps 7 - the restoration is skipped
for non-configurable properties, so the host's k is not restored to
its original value 0 as the claim requires. -/
theorem legacy_roundtrip_nonconfigurable_cex :
    omRawGet (legacyInactive
        (legacyProxySet c2Host (lsNew "a") (PKey.str "k") (Val.int 7)).2.1
        (legacyProxySet c2Host (lsNew "a") (PKey.str "k") (Val.int 7)).2.2).1
      (PKey.str "k") = Val.int 7 ∧
    (Val.int 7 : Val) ≠ Val.int 0 := by
  decide

/-- Whether the host descriptor for a key lets a write/deactivate/
reactivate cycle take effect: the key is absent, or configurable, or
accepts plain assignment. -/
def legacyWriteAdmissible (h : ObjMap) (p : PKey) : Bool :=
  match alLookup h p with
  | none => true
  | some d => d.configurable || descWriteSucceeds d

/-- C8 (amended): for a fresh diffing sandbox, after write K=v1,
deactivate, and a second activate - which re-applies the current
merged map onto the host without re-executing the write - the host
reads K as v1 again, provided the host's descriptor for K admitted
the write in the first place (K absent, or configurable, or a
writable/setter property); a non-configurable non-writable K such as
NaN never reads back as v1. -/
theorem legacy_reactivation_continuity (host0 : ObjMap) (nm K : String) (v1 : Val)
    (hadm : legacyWriteAdmissible host0 (PKey.str K) = true) :
    omRawGet (legacyActive
        (legacyInactive (legacyProxySet host0 (lsNew nm) (PKey.str K) v1).2.1
          (legacyProxySet host0 (lsNew nm) (PKey.str K) v1).2.2).1
        (legacyInactive (legacyProxySet host0 (lsNew nm) (PKey.str K) v1).2.1
          (legacyProxySet host0 (lsNew nm) (PKey.str K) v1).2.2).2).1
      (PKey.str K) = v1 := by
  cases hl : alLookup host0 (PKey.str K) with
  | none =>
    have hstep : legacyProxySet host0 (lsNew nm) (PKey.str K) v1 =
        (true, omJsAssign host0 (PKey.str K) v1,
         { name := nm, addedPropsMapInSandbox := [(PKey.str K, v1)],
           modifiedPropsOriginalValueMapInSandbox := [],
           currentUpdatedPropsValueMap := [(PKey.str K, v1)],
           sandboxRunning := true, latestSetProp := some (PKey.str K) }) := by
      rw [legacyProxySet, legacySetTrap]
      simp [lsNew, alHasKey, hl, alInsert]
    rw [hstep]
    simp only [legacyInactive, legacyActive, List.foldl_cons, List.foldl_nil,
      setWindowProp_delete]
    have hcfg : isPropConfigurable
        (alDelete (omJsAssign host0 (PKey.str K) v1) (PKey.str K)) (PKey.str K) =
        true := by
      simp [isPropConfigurable, alLookup_delete]
    simp [omRawGet, setWindowProp_assign_result _ K v1 hcfg]
  | some d =>
    have hstep : legacyProxySet host0 (lsNew nm) (PKey.str K) v1 =
        (true, omJsAssign host0 (PKey.str K) v1,
         { name := nm, addedPropsMapInSandbox := [],
           modifiedPropsOriginalValueMapInSandbox := [(PKey.str K, d.value)],
           currentUpdatedPropsValueMap := [(PKey.str K, v1)],
           sandboxRunning := true, latestSetProp := some (PKey.str K) }) := by
      rw [legacyProxySet, legacySetTrap]
      simp [lsNew, alHasKey, hl, alInsert, alLookup, omRawGet]
    have hlookH1 : alLookup (omJsAssign host0 (PKey.str K) v1) (PKey.str K) =
        some (descAssign d v1) := by
      rw [alLookup_jsAssign_self, hl]
    by_cases hc : d.configurable = true
    · rw [hstep]
      simp only [legacyInactive, legacyActive, List.foldl_cons, List.foldl_nil]
      have hcfg1 : isPropConfigurable (omJsAssign host0 (PKey.str K) v1)
          (PKey.str K) = true := by
        simp [isPropConfigurable, hlookH1, descAssign_configurable, hc]
      have hlookH2 := setWindowProp_assign_result (omJsAssign host0 (PKey.str K) v1)
        K d.value hcfg1
      have hcfg2 : isPropConfigurable
          (setWindowProp (omJsAssign host0 (PKey.str K) v1) (PKey.str K) d.value false)
          (PKey.str K) = true := by
        simp [isPropConfigurable, hlookH2]
      simp [omRawGet, setWindowProp_assign_result _ K v1 hcfg2]
    · have hcf : d.configurable = false := by
        simpa using hc
      have hsuc : descWriteSucceeds d = true := by
        have hh := hadm
        simp [legacyWriteAdmissible, hl] at hh
        rcases hh with h1 | h1
        · exact absurd h1 (by simpa using hc)
        · exact h1
      have hncfg : isPropConfigurable (omJsAssign host0 (PKey.str K) v1)
          (PKey.str K) = false := by
        simp [isPropConfigurable, hlookH1, descAssign_configurable, hcf]
      rw [hstep]
      simp only [legacyInactive, legacyActive, List.foldl_cons, List.foldl_nil]
      rw [setWindowProp_nonconfigurable_skip _ _ _ hncfg]
      rw [setWindowProp_nonconfigurable_skip _ _ _ hncfg]
      simp [omRawGet, hlookH1, descAssign_value_of_succeeds d v1 hsuc]

theorem legacy_reactivation_continuity_w :
    omRawGet (legacyActive
        (legacyInactive (legacyProxySet [] (lsNew "a") (PKey.str "k") (Val.int 5)).2.1
          (legacyProxySet [] (lsNew "a") (PKey.str "k") (Val.int 5)).2.2).1
        (legacyInactive (legacyProxySet [] (lsNew "a") (PKey.str "k") (Val.int 5)).2.1
          (legacyProxySet [] (lsNew "a") (PKey.str "k") (Val.int 5)).2.2).2).1
      (PKey.str "k") = Val.int 5 :=
  legacy_reactivation_continuity [] "a" "k" (Val.int 5) rfl

def c8Host : ObjMap :=
  [(PKey.str "k", { value := Val.int 0, writable := false, enumerable := false,
                    configurable := false, hasGetter := false, hasSetter := false })]

/-- C8 counterexample: for a key whose host descriptor is
non-configurable and non-writable (like NaN), the cycle write k=5,
deactivate, activate leaves the host reading k as 0, not 5 - the
claim's universal "for every key K written during the previous
activation" fails. -/
theorem legacy_reactivation_nonwritable_cex :
    omRawGet (legacyActive
        (legacyInactive (legacyProxySet c8Host (lsNew "a") (PKey.str "k") (Val.int 5)).2.1
          (legacyProxySet c8Host (lsNew "a") (PKey.str "k") (Val.int 5)).2.2).1
        (legacyInactive (legacyProxySet c8Host (lsNew "a") (PKey.str "k") (Val.int 5)).2.1
          (legacyProxySet c8Host (lsNew "a") (PKey.str "k") (Val.int 5)).2.2).2).1
      (PKey.str "k") = Val.int 0 ∧
    (Val.int 0 : Val) ≠ Val.int 5 := by
  decide
